import Mathlib

/-!
Shallow embedding of `fred_monday_sync.py`, a one-shot synchronization
script that reads the latest observation of FRED economic series and
writes them into rows of a Monday.com board.

Modelling conventions:
* Python `float` values are modelled as `ℚ`.  The script only parses
  decimal literals, subtracts two values and rounds; on the decimal data
  it manipulates this is the intended arithmetic (binary floating-point
  artefacts such as `round(2.675, 2) = 2.67` are outside the model).
* Python `round(x, n)` uses round-half-to-even; `pyRound` implements that
  on `ℚ`.
* `float(s)` (the string-to-number conversion) is modelled by `pyFloat?`
  on the grammar of finite decimal literals with optional sign, fraction
  and exponent.  Python additionally accepts `inf`/`nan` and underscore
  separators; these have no rational denotation / do not occur in the
  numeric field texts the script reads, and are parsed as `none` here.
* HTTP calls are injected: the FRED response is passed as the decoded
  observation list, the Monday mutation outcome as an `Except`-valued
  function, and row enumeration (`fetch_all_items`, whose
  `monday_request` exceptions propagate uncaught) as an
  `Except`-valued input to the main run.
* A raised Python exception is an `Except.error` carrying the message.
* The `vals` dictionary built by `update_item` is an association list in
  insertion order with Python-dict overwrite semantics (`dictInsert`).
  `ColValue.numStr q` stands for the decimal string `str(float)` of `q`
  (injective on the represented values), `ColValue.text s` for a plain
  string value, and `ColValue.dateObj d` for the object `{"date": d}`.
-/

/-- Numeric value of a list of decimal digit characters, most significant
first (accumulator fold, as a base-10 positional read). -/
def digitsToNat (l : List Char) : ℕ :=
  l.foldl (fun a c => a * 10 + (c.toNat - '0'.toNat)) 0

/-- Python `str.strip()` on a character list: drop whitespace from both
ends. -/
def stripChars (l : List Char) : List Char :=
  ((l.dropWhile Char.isWhitespace).reverse.dropWhile Char.isWhitespace).reverse

/-- Split an optional leading sign from a character list; returns
(isNegative, rest). -/
def splitSign : List Char → (Bool × List Char)
  | '-' :: r => (true, r)
  | '+' :: r => (false, r)
  | l => (false, l)

/-- Parse an unsigned decimal mantissa: digits, optionally with a single
decimal point, requiring at least one digit overall (so `"1."`, `".5"`,
`"45"` parse and `"."`, `""` do not) — the mantissa grammar accepted by
Python `float`. -/
def parseDecimal? (l : List Char) : Option ℚ :=
  let ip := l.takeWhile Char.isDigit
  let rest := l.dropWhile Char.isDigit
  match rest with
  | [] => if ip.isEmpty then none else some (digitsToNat ip)
  | '.' :: fr =>
    if fr.all Char.isDigit && !(ip.isEmpty && fr.isEmpty) then
      some ((digitsToNat ip : ℚ) + (digitsToNat fr : ℚ) / (10 : ℚ) ^ fr.length)
    else none
  | _ => none

/-- Model of Python `float` on the characters of a finite decimal
literal: surrounding whitespace is ignored, then an optional sign, a
decimal mantissa and an optional `e`/`E` exponent with its own optional
sign.  Returns `none` where `float` raises `ValueError`. -/
def pyFloatChars? (l0 : List Char) : Option ℚ :=
  let l := stripChars l0
  let (neg, l) := splitSign l
  let mant := l.takeWhile (fun c => c != 'e' && c != 'E')
  let expPart := l.dropWhile (fun c => c != 'e' && c != 'E')
  let signed : ℚ → ℚ := fun q => if neg then -q else q
  match expPart with
  | [] => (parseDecimal? mant).map signed
  | _ :: er =>
    let (eneg, ed) := splitSign er
    if !ed.isEmpty && ed.all Char.isDigit then
      (parseDecimal? mant).map (fun q =>
        let e : ℚ := (10 : ℚ) ^ digitsToNat ed
        signed (if eneg then q / e else q * e))
    else none

/-- Model of Python `float(s)`. -/
def pyFloat? (s : String) : Option ℚ := pyFloatChars? s.data

/-- `parse_float_maybe` from the source: empty string means `None`;
otherwise all `%` and `,` characters are removed
(`s.replace("%","").replace(",","")`), whitespace stripped, and the
remainder converted with `float`, any failure mapped to `None`.  (The
explicit `.strip()` of the source is absorbed by the whitespace
stripping `float` itself performs, which `pyFloatChars?` models.) -/
def parse_float_maybe (s : String) : Option ℚ :=
  if s = "" then none
  else pyFloatChars? (s.data.filter (fun c => c != '%' && c != ','))

/-- Floor of a rational as an integer (`⌊q⌋`, computed from the reduced
numerator/denominator with flooring integer division). -/
def ratFloor (q : ℚ) : ℤ := Int.fdiv q.num q.den

/-- Round a rational to the nearest integer, ties to even — the rounding
mode of Python `round`. -/
def roundHalfEven (q : ℚ) : ℤ :=
  let f := ratFloor q
  let r := q - (f : ℚ)
  if r < 1 / 2 then f
  else if r = 1 / 2 then (if f % 2 = 0 then f else f + 1)
  else f + 1

/-- Model of Python `round(x, ndigits)` on `ℚ`. -/
def pyRound (ndigits : ℕ) (q : ℚ) : ℚ :=
  (roundHalfEven (q * (10 : ℚ) ^ ndigits) : ℚ) / (10 : ℚ) ^ ndigits

/-! ### Column configuration (module-level constants of the script) -/

def COL_SYMBOL : String := "text_mkwxpng"
def COL_RATE : String := "numeric_mkwxeqs"
def COL_INDEX : String := "numeric_mkzvts68"
def COL_DATE : String := "date4"
def COL_SOURCE : String := "text_mkwxc0yj"

/-- `COL_DELTA: Optional[str] = None` — the shipped config has no delta
column; a deployment may set a column id here. -/
def COL_DELTA : Option String := none

/-! ### Series routing (`is_rate_series`) -/

/-- `needle in hay` on character lists: Python's substring containment. -/
def containsSub (hay needle : List Char) : Bool :=
  match hay with
  | [] => needle.isEmpty
  | _ :: t => needle.isPrefixOf hay || containsSub t needle

/-- The fixed keyword list of `is_rate_series`. -/
def rate_keywords : List String :=
  ["DGS", "SOFR", "PRIME", "FEDFUNDS", "MORTGAGE", "UNRATE",
   "DRCL", "DRTS", "RATE", "BSBY", "SWAP"]

/-- `is_rate_series` from the source: upper-case and strip the symbol
(`symbol.upper().strip()`), then test whether any keyword occurs as a
substring (Python `k in s`). -/
def is_rate_series (symbol : String) : Bool :=
  let s := stripChars (symbol.data.map Char.toUpper)
  rate_keywords.any (fun k => containsSub s k.data)

/-! ### FRED value fetch -/

/-- One decoded FRED observation: its date string and its value text
(`obs.get("value")`; `none` models an absent key / JSON null). -/
structure FredObs where
  date : String
  value : Option String
deriving DecidableEq, Repr

/-- The `limit` query parameter of the FRED observations request. -/
def fred_request_limit : ℕ := 20

/-- `fetch_latest_fred_value` from the source, over the decoded
observation list (the response to the descending-sorted, limit-20
request): scan in order, skip values in `("", ".", None)`, return
`float(v)` of the first other value, and raise
`"No valid observation for <id>"` if the scan exhausts the list.
A non-sentinel, non-numeric value makes `float` raise, modelled by the
conversion error. -/
def fetch_latest_fred_value (series_id : String) :
    List FredObs → Except String ℚ
  | [] => .error ("No valid observation for " ++ series_id)
  | o :: rest =>
    match o.value with
    | none => fetch_latest_fred_value series_id rest
    | some v =>
      if v = "" ∨ v = "." then fetch_latest_fred_value series_id rest
      else
        match pyFloat? v with
        | some q => .ok q
        | none => .error ("could not convert string to float: " ++ v)

/-- The sentinel test `v in ("", ".", None)` of the fetch loop, as a
predicate on the optional value text. -/
def sentinelVal : Option String → Bool
  | none => true
  | some s => s == "" || s == "."

/-! ### The update payload (`update_item`) -/

/-- Python `str.strip()` at the `String` level. -/
def pyStrip (s : String) : String := String.mk (stripChars s.data)

/-- A value in the `vals` dictionary sent to the Monday mutation.
`numStr q` stands for the decimal string `str(float)` of `q`, `text s`
for the plain string `s`, and `dateObj d` for the JSON object
`{"date": d}`. -/
inductive ColValue where
  | numStr (q : ℚ)
  | text (s : String)
  | dateObj (d : String)
deriving DecidableEq, Repr

/-- Python-dict assignment `d[k] = v` on an insertion-ordered
association list: overwrite in place if the key is present, else append. -/
def dictInsert (l : List (String × ColValue)) (k : String) (v : ColValue) :
    List (String × ColValue) :=
  if l.any (fun p => p.1 = k) then
    l.map (fun p => if p.1 = k then (k, v) else p)
  else l ++ [(k, v)]

/-- Lookup in the `vals` association list (first match; keys are unique
by construction). -/
def lookupVal (k : String) : List (String × ColValue) → Option ColValue
  | [] => none
  | (k', v) :: t => if k' = k then some v else lookupVal k t

/-- One board row as assembled by `fetch_all_items`: id, name, and the
stripped texts of the symbol, rate and index columns. -/
structure Item where
  id : String
  name : String
  symbol : String
  prev_rate : String
  prev_index : String
deriving DecidableEq, Repr

/-- A configured delta column id is sound when it does not collide with
the five fixed column ids (a freshly added Monday column has a new id)
and is non-empty (the source guards on the truthiness of `COL_DELTA`). -/
def freshDelta : Option String → Bool
  | none => true
  | some c =>
    !(c == "") && !(c == COL_RATE) && !(c == COL_INDEX) &&
    !(c == COL_DATE) && !(c == COL_SOURCE) && !(c == COL_SYMBOL)

/-- The `vals` dictionary built by `update_item` before it is sent:
route by `is_rate_series`, round a rate-routed value to 2 decimals,
keep an index-routed value raw, clear the non-target column with `""`,
set the date column to the run's `today`, the source label and the
symbol, and — when a delta column is configured (`COL_DELTA` truthy) and
the previous target text parses — the delta, rounded to 2 decimals for
rate-routed rows and raw otherwise.  `colDelta` is the `COL_DELTA`
configuration constant, `today` the value of
`datetime.date.today().isoformat()` at the call. -/
def update_vals (colDelta : Option String) (today : String)
    (item : Item) (new_value : ℚ) : List (String × ColValue) :=
  let target_is_rate := is_rate_series item.symbol
  let target_col := if target_is_rate then COL_RATE else COL_INDEX
  let clear_col := if target_is_rate then COL_INDEX else COL_RATE
  let write_value := if target_is_rate then pyRound 2 new_value else new_value
  let prev_val :=
    parse_float_maybe (if target_is_rate then item.prev_rate else item.prev_index)
  let delta_val := prev_val.map (fun p => write_value - p)
  let base : List (String × ColValue) :=
    [(target_col, ColValue.numStr write_value),
     (clear_col, ColValue.text ""),
     (COL_DATE, ColValue.dateObj today),
     (COL_SOURCE, ColValue.text "FRED"),
     (COL_SYMBOL, ColValue.text item.symbol)]
  match colDelta with
  | none => base
  | some cd =>
    if cd = "" then base
    else
      match delta_val with
      | none => base
      | some d =>
        dictInsert base cd
          (ColValue.numStr (if target_is_rate then pyRound 2 d else d))

/-! ### `monday_request` and the main run -/

/-- The decoded body of a Monday response: whether the JSON carries an
`"errors"` envelope, and its `"data"` field if any. -/
structure MondayBody (α : Type) where
  hasErrors : Bool
  dataField : Option α
deriving DecidableEq, Repr

/-- The outcome of the HTTP POST underlying `monday_request`:
either `requests.post` itself raised (transport failure / timeout), or a
response arrived with a success flag (`r.ok`), a status code, and a body
that decoded to JSON or not (`r.json()` raising). -/
inductive MondayHttp (α : Type) where
  | transportError (msg : String)
  | response (ok : Bool) (status : ℕ) (body : Option (MondayBody α))
deriving DecidableEq, Repr

/-- `monday_request` from the source: propagate a transport exception,
raise a decode error if `r.json()` fails, then reject non-success HTTP
status, then a GraphQL `"errors"` envelope, and otherwise return
`data.get("data", dflt)`. -/
def monday_request {α : Type} (dflt : α) : MondayHttp α → Except String α
  | .transportError m => .error m
  | .response _ status none =>
    .error ("Monday decode error (HTTP " ++ toString status ++ ")")
  | .response ok status (some b) =>
    if ok = false then .error ("Monday HTTP " ++ toString status)
    else if b.hasErrors then .error "Monday GraphQL errors"
    else .ok (b.dataField.getD dflt)

/-- The run-level accumulators of `__main__`, extended with the trace of
FRED fetch calls and attempted Monday update mutations so that "is
called / is not called" is expressible. -/
structure RunState where
  updated : ℕ
  skipped_manual : ℕ
  failed : ℕ
  failures : List String
  fetchCalls : List String
  updateCalls : List (String × ℚ)
deriving DecidableEq, Repr

/-- The counters all start at zero. -/
def initState : RunState :=
  { updated := 0, skipped_manual := 0, failed := 0,
    failures := [], fetchCalls := [], updateCalls := [] }

/-- The per-row failure message of the main loop:
`f"{it.get('name','')} ({symbol}) item {it.get('id')} : {e}"`. -/
def failureMsg (it : Item) (symbol e : String) : String :=
  it.name ++ " (" ++ symbol ++ ") item " ++ it.id ++ " : " ++ e

/-- One iteration of the main loop.  `fetch` is
`fetch_latest_fred_value` with the remote interaction injected (its
exception is the `.error` message); `push` is the Monday mutation of
`update_item` with its `monday_request` outcome injected.  A blank
symbol is counted as skipped before any call; a fetch or push error is
caught, recorded and counted as failed; otherwise the row counts as
updated. -/
def processRow (fetch : String → Except String ℚ)
    (push : Item → ℚ → Except String Unit)
    (st : RunState) (it : Item) : RunState :=
  let symbol := pyStrip it.symbol
  if symbol = "" then
    { st with skipped_manual := st.skipped_manual + 1 }
  else
    match fetch symbol with
    | .error e =>
      { st with failed := st.failed + 1,
                failures := st.failures ++ [failureMsg it symbol e],
                fetchCalls := st.fetchCalls ++ [symbol] }
    | .ok val =>
      match push it val with
      | .error e =>
        { st with failed := st.failed + 1,
                  failures := st.failures ++ [failureMsg it symbol e],
                  fetchCalls := st.fetchCalls ++ [symbol],
                  updateCalls := st.updateCalls ++ [(it.id, val)] }
      | .ok _ =>
        { st with updated := st.updated + 1,
                  fetchCalls := st.fetchCalls ++ [symbol],
                  updateCalls := st.updateCalls ++ [(it.id, val)] }

/-- Result of a whole run: `fatal` when the uncaught exception of row
enumeration (`fetch_all_items` → `monday_request`) aborts `__main__`
before the loop, `finished` otherwise. -/
inductive RunOutcome where
  | fatal (e : String)
  | finished (st : RunState)
deriving DecidableEq, Repr

/-- `__main__` from the source: enumerate all items (aborting on
failure), then fold the per-row step over the list in order. -/
def runMain (fetch : String → Except String ℚ)
    (push : Item → ℚ → Except String Unit)
    (enum : Except String (List Item)) : RunOutcome :=
  match enum with
  | .error e => .fatal e
  | .ok items => .finished (items.foldl (processRow fetch push) initState)

/-- The Monday update mutations attempted by a run (none in the fatal
case: the exception fires before the loop). -/
def outcomeUpdateCalls : RunOutcome → List (String × ℚ)
  | .fatal _ => []
  | .finished st => st.updateCalls


deriving instance DecidableEq for Except

/-- Follows the words of the delta-computation claim (not the source):
the previously stored text is parsed "after stripping a *trailing*
percent sign and thousands-separator commas"; stated here to compare
that reading with `parse_float_maybe` from the source. -/
def claimParsePrev (s : String) : Option ℚ :=
  let s1 := if s.data.getLast? = some '%' then s.data.dropLast else s.data
  pyFloatChars? (s1.filter (fun c => c != ','))

/-! ### Helper lemmas -/

theorem lookupVal_map_overwrite (k cd : String) (v : ColValue) (h : k ≠ cd) :
    ∀ l : List (String × ColValue),
      lookupVal k (l.map (fun p => if p.1 = cd then (cd, v) else p)) = lookupVal k l
  | [] => rfl
  | (k', v') :: t => by
    simp only [List.map_cons]
    by_cases hk : k' = cd
    · rw [show (if (k', v').1 = cd then (cd, v) else (k', v')) = (cd, v) by
        simp [hk]]
      show (if cd = k then some v else _) = (if k' = k then some v' else _)
      rw [if_neg (fun hh => h hh.symm), if_neg (fun hh => h (hk ▸ hh).symm)]
      exact lookupVal_map_overwrite k cd v h t
    · rw [show (if (k', v').1 = cd then (cd, v) else (k', v')) = (k', v') by
        simp [hk]]
      show (if k' = k then some v' else _) = (if k' = k then some v' else _)
      by_cases hk2 : k' = k
      · rw [if_pos hk2, if_pos hk2]
      · rw [if_neg hk2, if_neg hk2]
        exact lookupVal_map_overwrite k cd v h t

theorem lookupVal_append_single_ne (k cd : String) (v : ColValue) (h : k ≠ cd) :
    ∀ l : List (String × ColValue),
      lookupVal k (l ++ [(cd, v)]) = lookupVal k l
  | [] => by
    show (if cd = k then some v else lookupVal k []) = none
    rw [if_neg (fun hh => h hh.symm)]
    rfl
  | (k', v') :: t => by
    show (if k' = k then some v' else _) = (if k' = k then some v' else _)
    by_cases hk2 : k' = k
    · rw [if_pos hk2, if_pos hk2]
    · rw [if_neg hk2, if_neg hk2]
      exact lookupVal_append_single_ne k cd v h t

theorem lookupVal_dictInsert_ne (l : List (String × ColValue))
    (k cd : String) (v : ColValue) (h : k ≠ cd) :
    lookupVal k (dictInsert l cd v) = lookupVal k l := by
  unfold dictInsert
  split
  · exact lookupVal_map_overwrite k cd v h l
  · exact lookupVal_append_single_ne k cd v h l

theorem lookupVal_dictInsert_self (l : List (String × ColValue))
    (cd : String) (v : ColValue)
    (h : l.any (fun p => p.1 = cd) = false) :
    lookupVal cd (dictInsert l cd v) = some v := by
  unfold dictInsert
  rw [if_neg (by simp [h])]
  induction l with
  | nil => simp [lookupVal]
  | cons p t ih =>
    obtain ⟨k', v'⟩ := p
    simp only [List.any_cons, Bool.or_eq_false_iff] at h
    show (if k' = cd then some v' else _) = some v
    rw [if_neg (by simpa using h.1)]
    exact ih h.2

theorem freshDelta_spec (cd : String) (h : freshDelta (some cd) = true) :
    cd ≠ "" ∧ cd ≠ COL_RATE ∧ cd ≠ COL_INDEX ∧ cd ≠ COL_DATE ∧
    cd ≠ COL_SOURCE ∧ cd ≠ COL_SYMBOL := by
  simp only [freshDelta, Bool.and_eq_true, Bool.not_eq_true', beq_eq_false_iff_ne,
    ne_eq] at h
  tauto

theorem containsSub_iff (hay needle : List Char) :
    containsSub hay needle = true ↔ ∃ l r, hay = l ++ needle ++ r := by
  induction hay with
  | nil =>
    simp only [containsSub, List.isEmpty_iff]
    constructor
    · rintro rfl; exact ⟨[], [], rfl⟩
    · rintro ⟨l, r, h⟩
      rcases List.append_eq_nil.mp (List.append_eq_nil.mp h.symm).1 with ⟨-, h2⟩
      exact h2
  | cons c t ih =>
    simp only [containsSub, Bool.or_eq_true, ih]
    constructor
    · rintro (hp | ⟨l, r, rfl⟩)
      · obtain ⟨r, hr⟩ := List.isPrefixOf_iff_prefix.mp hp
        exact ⟨[], r, by simp [hr]⟩
      · exact ⟨c :: l, r, rfl⟩
    · rintro ⟨l, r, hl⟩
      cases l with
      | nil =>
        left
        exact List.isPrefixOf_iff_prefix.mpr ⟨r, by simpa using hl.symm⟩
      | cons x l' =>
        right
        rw [List.cons_append, List.cons_append] at hl
        injection hl with h1 h2
        exact ⟨l', r, h2⟩

/-- The base five entries of the `vals` dictionary, before the optional
delta entry. -/
def baseVals (tir : Bool) (today : String) (item : Item) (w : ℚ) :
    List (String × ColValue) :=
  [(if tir then COL_RATE else COL_INDEX, ColValue.numStr w),
   (if tir then COL_INDEX else COL_RATE, ColValue.text ""),
   (COL_DATE, ColValue.dateObj today),
   (COL_SOURCE, ColValue.text "FRED"),
   (COL_SYMBOL, ColValue.text item.symbol)]

theorem update_vals_shape (cd : Option String) (today : String)
    (item : Item) (v : ℚ) :
    update_vals cd today item v = baseVals (is_rate_series item.symbol) today item
        (if is_rate_series item.symbol then pyRound 2 v else v)
    ∨ (∃ c d, cd = some c ∧ c ≠ "" ∧
        (parse_float_maybe
          (if is_rate_series item.symbol then item.prev_rate else item.prev_index)).map
            (fun p => (if is_rate_series item.symbol then pyRound 2 v else v) - p)
          = some d ∧
        update_vals cd today item v =
          dictInsert (baseVals (is_rate_series item.symbol) today item
            (if is_rate_series item.symbol then pyRound 2 v else v)) c
            (ColValue.numStr (if is_rate_series item.symbol then pyRound 2 d else d))) := by
  unfold update_vals baseVals
  cases cd with
  | none => left; rfl
  | some c =>
    by_cases hc : c = ""
    · left; simp [hc]
    · rcases hp : (parse_float_maybe
          (if is_rate_series item.symbol then item.prev_rate else item.prev_index)).map
            (fun p => (if is_rate_series item.symbol then pyRound 2 v else v) - p) with _ | d
      · left
        simp only [if_neg hc]
        rw [hp]
      · right
        refine ⟨c, d, rfl, hc, rfl, ?_⟩
        simp only [if_neg hc]
        rw [hp]

theorem lookupVal_baseVals (tir : Bool) (today : String) (item : Item) (w : ℚ) :
    lookupVal (if tir then COL_RATE else COL_INDEX) (baseVals tir today item w)
      = some (ColValue.numStr w)
  ∧ lookupVal (if tir then COL_INDEX else COL_RATE) (baseVals tir today item w)
      = some (ColValue.text "")
  ∧ lookupVal COL_DATE (baseVals tir today item w) = some (ColValue.dateObj today)
  ∧ lookupVal COL_SOURCE (baseVals tir today item w) = some (ColValue.text "FRED")
  ∧ lookupVal COL_SYMBOL (baseVals tir today item w)
      = some (ColValue.text item.symbol) := by
  cases tir <;>
    exact ⟨by simp [baseVals, lookupVal, COL_RATE, COL_INDEX, COL_DATE, COL_SOURCE, COL_SYMBOL],
           by simp [baseVals, lookupVal, COL_RATE, COL_INDEX, COL_DATE, COL_SOURCE, COL_SYMBOL],
           by simp [baseVals, lookupVal, COL_RATE, COL_INDEX, COL_DATE, COL_SOURCE, COL_SYMBOL],
           by simp [baseVals, lookupVal, COL_RATE, COL_INDEX, COL_DATE, COL_SOURCE, COL_SYMBOL],
           by simp [baseVals, lookupVal, COL_RATE, COL_INDEX, COL_DATE, COL_SOURCE, COL_SYMBOL]⟩

theorem baseVals_fresh_none (tir : Bool) (today : String) (item : Item) (w : ℚ)
    (cd : String) (h : freshDelta (some cd) = true) :
    lookupVal cd (baseVals tir today item w) = none
  ∧ (baseVals tir today item w).any (fun p => p.1 = cd) = false := by
  obtain ⟨-, h1, h2, h3, h4, h5⟩ := freshDelta_spec cd h
  cases tir <;> constructor <;>
    simp [baseVals, lookupVal, h1.symm, h2.symm, h3.symm, h4.symm, h5.symm]

theorem processRow_blank (fetch : String → Except String ℚ)
    (push : Item → ℚ → Except String Unit) (st : RunState) (it : Item)
    (h : pyStrip it.symbol = "") :
    processRow fetch push st it =
      { st with skipped_manual := st.skipped_manual + 1 } := by
  unfold processRow
  rw [if_pos h]

theorem processRow_fetch_error (fetch : String → Except String ℚ)
    (push : Item → ℚ → Except String Unit) (st : RunState) (it : Item)
    (e : String) (h : ¬ pyStrip it.symbol = "")
    (hf : fetch (pyStrip it.symbol) = .error e) :
    processRow fetch push st it =
      { st with failed := st.failed + 1,
                failures := st.failures ++ [failureMsg it (pyStrip it.symbol) e],
                fetchCalls := st.fetchCalls ++ [pyStrip it.symbol] } := by
  unfold processRow
  rw [if_neg h, hf]

theorem processRow_push_error (fetch : String → Except String ℚ)
    (push : Item → ℚ → Except String Unit) (st : RunState) (it : Item)
    (v : ℚ) (e : String) (h : ¬ pyStrip it.symbol = "")
    (hf : fetch (pyStrip it.symbol) = .ok v) (hp : push it v = .error e) :
    processRow fetch push st it =
      { st with failed := st.failed + 1,
                failures := st.failures ++ [failureMsg it (pyStrip it.symbol) e],
                fetchCalls := st.fetchCalls ++ [pyStrip it.symbol],
                updateCalls := st.updateCalls ++ [(it.id, v)] } := by
  unfold processRow
  rw [if_neg h, hf]
  simp only [hp]

theorem processRow_ok (fetch : String → Except String ℚ)
    (push : Item → ℚ → Except String Unit) (st : RunState) (it : Item)
    (v : ℚ) (h : ¬ pyStrip it.symbol = "")
    (hf : fetch (pyStrip it.symbol) = .ok v) (hp : push it v = .ok ()) :
    processRow fetch push st it =
      { st with updated := st.updated + 1,
                fetchCalls := st.fetchCalls ++ [pyStrip it.symbol],
                updateCalls := st.updateCalls ++ [(it.id, v)] } := by
  unfold processRow
  rw [if_neg h, hf]
  simp only [hp]

theorem processRow_counters (fetch : String → Except String ℚ)
    (push : Item → ℚ → Except String Unit) (st : RunState) (it : Item) :
    ((processRow fetch push st it).updated = st.updated + 1
      ∧ (processRow fetch push st it).skipped_manual = st.skipped_manual
      ∧ (processRow fetch push st it).failed = st.failed)
  ∨ ((processRow fetch push st it).updated = st.updated
      ∧ (processRow fetch push st it).skipped_manual = st.skipped_manual + 1
      ∧ (processRow fetch push st it).failed = st.failed)
  ∨ ((processRow fetch push st it).updated = st.updated
      ∧ (processRow fetch push st it).skipped_manual = st.skipped_manual
      ∧ (processRow fetch push st it).failed = st.failed + 1) := by
  unfold processRow
  by_cases h : pyStrip it.symbol = ""
  · rw [if_pos h]; right; left; exact ⟨rfl, rfl, rfl⟩
  · rw [if_neg h]
    rcases hf : fetch (pyStrip it.symbol) with e | v
    · right; right; exact ⟨rfl, rfl, rfl⟩
    · dsimp only
      rcases hp : push it v with e | u
      · right; right; exact ⟨rfl, rfl, rfl⟩
      · left; exact ⟨rfl, rfl, rfl⟩

theorem processRow_sum (fetch : String → Except String ℚ)
    (push : Item → ℚ → Except String Unit) (st : RunState) (it : Item) :
    (processRow fetch push st it).updated
      + (processRow fetch push st it).skipped_manual
      + (processRow fetch push st it).failed
    = st.updated + st.skipped_manual + st.failed + 1 := by
  rcases processRow_counters fetch push st it with
    ⟨h1, h2, h3⟩ | ⟨h1, h2, h3⟩ | ⟨h1, h2, h3⟩ <;> rw [h1, h2, h3] <;> omega

theorem foldl_processRow_sum (fetch : String → Except String ℚ)
    (push : Item → ℚ → Except String Unit) :
    ∀ (rows : List Item) (st : RunState),
      (rows.foldl (processRow fetch push) st).updated
        + (rows.foldl (processRow fetch push) st).skipped_manual
        + (rows.foldl (processRow fetch push) st).failed
      = st.updated + st.skipped_manual + st.failed + rows.length
  | [], st => by simp
  | r :: rest, st => by
    have h1 := foldl_processRow_sum fetch push rest (processRow fetch push st r)
    have h2 := processRow_sum fetch push st r
    simp only [List.foldl_cons, List.length_cons]
    omega

theorem fetch_skips_sentinels (sid : String) :
    ∀ (pre l : List FredObs),
      (∀ p ∈ pre, sentinelVal p.value = true) →
      fetch_latest_fred_value sid (pre ++ l) = fetch_latest_fred_value sid l
  | [], _, _ => rfl
  | p :: pre', l, h => by
    have hp : sentinelVal p.value = true := h p (by simp)
    have ih := fetch_skips_sentinels sid pre' l (fun x hx => h x (by simp [hx]))
    rcases hval : p.value with _ | s
    · show fetch_latest_fred_value sid (p :: (pre' ++ l)) = _
      rw [fetch_latest_fred_value, hval]
      exact ih
    · rw [hval] at hp
      have hs : s = "" ∨ s = "." := by simpa [sentinelVal] using hp
      show fetch_latest_fred_value sid (p :: (pre' ++ l)) = _
      rw [fetch_latest_fred_value, hval]
      dsimp only
      rw [if_pos hs]
      exact ih

theorem fetch_all_sentinels (sid : String) (obs : List FredObs)
    (h : ∀ p ∈ obs, sentinelVal p.value = true) :
    fetch_latest_fred_value sid obs =
      .error ("No valid observation for " ++ sid) := by
  have := fetch_skips_sentinels sid obs [] h
  simpa using this

theorem fetch_hit (sid : String) (o : FredObs) (rest : List FredObs)
    (v : String) (q : ℚ) (ho : o.value = some v)
    (hv : sentinelVal o.value = false) (hq : pyFloat? v = some q) :
    fetch_latest_fred_value sid (o :: rest) = .ok q := by
  rw [ho] at hv
  have hns : ¬ (v = "" ∨ v = ".") := by simpa [sentinelVal] using hv
  rw [fetch_latest_fred_value, ho]
  dsimp only
  rw [if_neg hns, hq]

/-- **C1** (amended): the value fetcher scans the observation list — the
response to the newest-first, descending-sorted request whose limit is
at least 20 — in order and returns the parsed value of the first
observation whose value text is not a missing-data sentinel (`""`, `"."`
or absent).  In particular, when the most recent `K` observations (the
list `pre`) are all sentinels and the next observation carries a valid
number, the result is exactly that number; and when every scanned
observation is a sentinel, it fails with the "no valid observation"
error naming the series.  (The claim as stated also asserts the
observation's *date* is returned; `C1_counterexample_no_date` refutes
that part, and this amended statement drops it.) -/
theorem C1_fetch_first_valid (sid : String) (pre rest : List FredObs)
    (o : FredObs) (v : String) (q : ℚ)
    (hpre : ∀ p ∈ pre, sentinelVal p.value = true)
    (ho : o.value = some v)
    (hv : sentinelVal o.value = false)
    (hq : pyFloat? v = some q) :
    fetch_latest_fred_value sid (pre ++ o :: rest) = .ok q
  ∧ (∀ obs : List FredObs, (∀ p ∈ obs, sentinelVal p.value = true) →
      fetch_latest_fred_value sid obs =
        .error ("No valid observation for " ++ sid))
  ∧ 20 ≤ fred_request_limit := by
  refine ⟨?_, fetch_all_sentinels sid, by decide⟩
  rw [fetch_skips_sentinels sid pre (o :: rest) hpre]
  exact fetch_hit sid o rest v q ho hv hq

section
attribute [local semireducible] Rat.add Rat.mul Rat.inv Rat.sub Rat.ofScientific

/-- Witness for C1: two sentinel observations followed by `"4.35"` dated
2024-03-01 make the fetcher return `4.35`. -/
theorem C1_witness :
    ([⟨"2024-03-05", some "."⟩, ⟨"2024-03-04", some ""⟩] :
        List FredObs).all (fun p => sentinelVal p.value) = true
  ∧ fetch_latest_fred_value "DGS10"
      [⟨"2024-03-05", some "."⟩, ⟨"2024-03-04", some ""⟩,
       ⟨"2024-03-01", some "4.35"⟩] = .ok (87 / 20) :=
  ⟨by decide, by
    have h := (C1_fetch_first_valid "DGS10"
      [⟨"2024-03-05", some "."⟩, ⟨"2024-03-04", some ""⟩] []
      ⟨"2024-03-01", some "4.35"⟩ "4.35" (87 / 20)
      (by decide) rfl (by decide) (by decide)).1
    simpa using h⟩

/-- C1 as stated is false in one respect: the fetcher does not return
the winning observation's date.  Two observation lists whose winning
observations agree in value but differ in date produce literally the
same result, so no date information is part of the return value. -/
theorem C1_counterexample_no_date :
    fetch_latest_fred_value "DGS10"
      [⟨"2024-03-05", some "."⟩, ⟨"2024-03-01", some "4.35"⟩]
    = fetch_latest_fred_value "DGS10"
      [⟨"1900-01-01", some "."⟩, ⟨"1900-01-02", some "4.35"⟩]
  ∧ fetch_latest_fred_value "DGS10"
      [⟨"2024-03-05", some "."⟩, ⟨"2024-03-01", some "4.35"⟩] = .ok (87 / 20)
  ∧ ("2024-03-01" : String) ≠ "1900-01-02" := by
  refine ⟨?_, ?_, ?_⟩ <;> decide

end

/-- **C2** (amended): the last-updated date field of the update payload
is always set to the run's current date (`datetime.date.today()`); the
fetched observation's date is never propagated into the payload, because
the fetcher returns only the value.  (`C2_counterexample_obs_date_ignored`
refutes the claim's statement that the series' own observation date is
used when the observation carries one.) -/
theorem C2_date_always_run_date (cd : Option String) (today : String)
    (item : Item) (v : ℚ) (h : freshDelta cd = true) :
    lookupVal COL_DATE (update_vals cd today item v) =
      some (ColValue.dateObj today) := by
  rcases update_vals_shape cd today item v with heq | ⟨c, d, hcd, hc, hd, heq⟩
  · rw [heq]
    exact (lookupVal_baseVals _ today item _).2.2.1
  · rw [heq]
    subst hcd
    have h4 : COL_DATE ≠ c := ((freshDelta_spec c h).2.2.2.1).symm
    rw [lookupVal_dictInsert_ne _ _ _ _ h4]
    exact (lookupVal_baseVals _ today item _).2.2.1

section
attribute [local semireducible] Rat.add Rat.mul Rat.inv Rat.sub Rat.ofScientific

/-- Witness for C2 at the shipped configuration. -/
theorem C2_witness :
    freshDelta COL_DELTA = true
  ∧ lookupVal COL_DATE
      (update_vals COL_DELTA "2024-04-09"
        ⟨"1", "Row A", "DGS10", "4.20", ""⟩ (87 / 20))
      = some (ColValue.dateObj "2024-04-09") :=
  ⟨by decide, C2_date_always_run_date COL_DELTA "2024-04-09"
    ⟨"1", "Row A", "DGS10", "4.20", ""⟩ (87 / 20) (by decide)⟩

/-- C2 as stated is false: for the observation `4.35` dated 2024-03-01,
the payload's date field holds the run date 2024-04-09, not the
observation's date — `update_item` always writes `today`, and the date
never reaches it because the fetcher returns only the value. -/
theorem C2_counterexample_obs_date_ignored :
    fetch_latest_fred_value "DGS10" [⟨"2024-03-01", some "4.35"⟩] = .ok (87 / 20)
  ∧ lookupVal COL_DATE
      (update_vals COL_DELTA "2024-04-09"
        ⟨"1", "Row A", "DGS10", "4.20", ""⟩ (87 / 20))
      = some (ColValue.dateObj "2024-04-09")
  ∧ ("2024-04-09" : String) ≠ "2024-03-01" := by
  refine ⟨?_, ?_, ?_⟩ <;> decide

end

/-- **C3**: in every update payload the non-target numeric field — the
index field when routing chose the rate field, and the rate field
otherwise — is present and mapped to the empty-string value, while the
target field carries the new numeric value, so after an update at most
one of the two numeric fields holds data.  (The delta column id, when
one is configured, is a fresh column id.) -/
theorem C3_nontarget_cleared (cd : Option String) (today : String)
    (item : Item) (v : ℚ) (h : freshDelta cd = true) :
    lookupVal (if is_rate_series item.symbol then COL_INDEX else COL_RATE)
        (update_vals cd today item v) = some (ColValue.text "")
  ∧ lookupVal (if is_rate_series item.symbol then COL_RATE else COL_INDEX)
        (update_vals cd today item v)
      = some (ColValue.numStr
          (if is_rate_series item.symbol then pyRound 2 v else v)) := by
  rcases update_vals_shape cd today item v with heq | ⟨c, d, hcd, hc, hd, heq⟩
  · rw [heq]
    exact ⟨(lookupVal_baseVals _ _ _ _).2.1, (lookupVal_baseVals _ _ _ _).1⟩
  · rw [heq]
    subst hcd
    obtain ⟨h0, h1, h2, h3, h4, h5⟩ := freshDelta_spec c h
    have hclear : (if is_rate_series item.symbol then COL_INDEX else COL_RATE) ≠ c := by
      cases is_rate_series item.symbol
      · exact h1.symm
      · exact h2.symm
    have htarget : (if is_rate_series item.symbol then COL_RATE else COL_INDEX) ≠ c := by
      cases is_rate_series item.symbol
      · exact h2.symm
      · exact h1.symm
    rw [lookupVal_dictInsert_ne _ _ _ _ hclear,
        lookupVal_dictInsert_ne _ _ _ _ htarget]
    exact ⟨(lookupVal_baseVals _ _ _ _).2.1, (lookupVal_baseVals _ _ _ _).1⟩

section
attribute [local semireducible] Rat.add Rat.mul Rat.inv Rat.sub Rat.ofScientific

/-- Witness for C3: a rate-routed row with a configured delta column
still gets its index field cleared to the empty string. -/
theorem C3_witness :
    freshDelta (some "delta1") = true
  ∧ lookupVal (if is_rate_series "DGS10" then COL_INDEX else COL_RATE)
      (update_vals (some "delta1") "2024-04-09"
        ⟨"1", "Row A", "DGS10", "4.20", ""⟩ (87 / 20))
      = some (ColValue.text "") :=
  ⟨by decide, (C3_nontarget_cleared (some "delta1") "2024-04-09"
    ⟨"1", "Row A", "DGS10", "4.20", ""⟩ (87 / 20) (by decide)).1⟩

end

/-- **C4**: a row whose symbol is blank after stripping whitespace is
counted as skipped and nothing else happens: the value fetcher and the
update applier are not called (the call traces are unchanged) and the
updated and failed counters are untouched. -/
theorem C4_blank_symbol_skipped (fetch : String → Except String ℚ)
    (push : Item → ℚ → Except String Unit) (st : RunState) (it : Item)
    (h : pyStrip it.symbol = "") :
    processRow fetch push st it =
      { st with skipped_manual := st.skipped_manual + 1 }
  ∧ (processRow fetch push st it).fetchCalls = st.fetchCalls
  ∧ (processRow fetch push st it).updateCalls = st.updateCalls
  ∧ (processRow fetch push st it).updated = st.updated
  ∧ (processRow fetch push st it).failed = st.failed := by
  have he := processRow_blank fetch push st it h
  rw [he]
  exact ⟨rfl, rfl, rfl, rfl, rfl⟩

section
attribute [local semireducible] Rat.add Rat.mul Rat.inv Rat.sub Rat.ofScientific

/-- Witness for C4: a whitespace-only symbol is skipped without any
fetch or update call. -/
theorem C4_witness :
    pyStrip ((⟨"9", "SBA manual", "  ", "", ""⟩ : Item).symbol) = ""
  ∧ processRow (fun _ => .error "unused") (fun _ _ => .ok ()) initState
      ⟨"9", "SBA manual", "  ", "", ""⟩
      = { initState with skipped_manual := 1 } :=
  ⟨by decide, by
    have h := (C4_blank_symbol_skipped (fun _ => .error "unused")
      (fun _ _ => .ok ()) initState ⟨"9", "SBA manual", "  ", "", ""⟩
      (by decide)).1
    exact h.trans (by decide)⟩

end

/-- **C5**: error severities are two-tier.  A failure while enumerating
board rows makes the whole run fatal with no update attempted
(`runMain` on an enumeration error), and `monday_request` raises on each
of the enumeration failure modes: transport failure, undecodable
response, non-success HTTP status, GraphQL error envelope.  A value
fetch failure or a single row's update failure is caught: it appends a
failure message built from the row's name, symbol and identifier,
increments only the failed counter, and the fold continues with the
remaining rows. -/
theorem C5_two_tier_errors :
    (∀ (fetch : String → Except String ℚ)
        (push : Item → ℚ → Except String Unit) (e : String),
        runMain fetch push (.error e) = .fatal e
      ∧ outcomeUpdateCalls (runMain fetch push (.error e)) = [])
  ∧ (∀ (α : Type) (dflt : α) (m : String) (ok : Bool) (status : ℕ)
        (b : MondayBody α),
        monday_request dflt (MondayHttp.transportError m) = .error m
      ∧ (∃ msg, monday_request dflt (.response ok status none) = .error msg)
      ∧ (ok = false →
          ∃ msg, monday_request dflt (.response ok status (some b)) = .error msg)
      ∧ (b.hasErrors = true →
          ∃ msg, monday_request dflt (.response ok status (some b)) = .error msg))
  ∧ (∀ (fetch : String → Except String ℚ)
        (push : Item → ℚ → Except String Unit)
        (st : RunState) (it : Item) (e : String),
        ¬ pyStrip it.symbol = "" →
        fetch (pyStrip it.symbol) = .error e →
        processRow fetch push st it =
          { st with failed := st.failed + 1,
                    failures := st.failures ++ [failureMsg it (pyStrip it.symbol) e],
                    fetchCalls := st.fetchCalls ++ [pyStrip it.symbol] })
  ∧ (∀ (fetch : String → Except String ℚ)
        (push : Item → ℚ → Except String Unit)
        (st : RunState) (it : Item) (v : ℚ) (e : String),
        ¬ pyStrip it.symbol = "" →
        fetch (pyStrip it.symbol) = .ok v →
        push it v = .error e →
        processRow fetch push st it =
          { st with failed := st.failed + 1,
                    failures := st.failures ++ [failureMsg it (pyStrip it.symbol) e],
                    fetchCalls := st.fetchCalls ++ [pyStrip it.symbol],
                    updateCalls := st.updateCalls ++ [(it.id, v)] })
  ∧ (∀ (fetch : String → Except String ℚ)
        (push : Item → ℚ → Except String Unit)
        (st : RunState) (it : Item) (rest : List Item),
        (it :: rest).foldl (processRow fetch push) st
          = rest.foldl (processRow fetch push) (processRow fetch push st it))
  ∧ (∀ (it : Item) (s e : String),
        failureMsg it s e =
          it.name ++ " (" ++ s ++ ") item " ++ it.id ++ " : " ++ e) := by
  refine ⟨?_, ?_, ?_, ?_, ?_, ?_⟩
  · intro fetch push e
    exact ⟨rfl, rfl⟩
  · intro α dflt m ok status b
    refine ⟨rfl, ⟨_, rfl⟩, ?_, ?_⟩
    · intro h
      subst h
      exact ⟨_, rfl⟩
    · intro h
      cases ok
      · exact ⟨_, rfl⟩
      · refine ⟨"Monday GraphQL errors", ?_⟩
        simp [monday_request, h]
  · intro fetch push st it e h hf
    exact processRow_fetch_error fetch push st it e h hf
  · intro fetch push st it v e h hf hp
    exact processRow_push_error fetch push st it v e h hf hp
  · intro fetch push st it rest
    rfl
  · intro it s e
    rfl

section
attribute [local semireducible] Rat.add Rat.mul Rat.inv Rat.sub Rat.ofScientific

/-- Witness for C5: a failing FRED fetch is recorded with name, symbol
and id, and an enumeration error makes the run fatal. -/
theorem C5_witness :
    (¬ pyStrip ((⟨"7", "Row C", "DGS10", "", ""⟩ : Item).symbol) = "")
  ∧ processRow (fun _ => .error "FRED down") (fun _ _ => .ok ()) initState
      ⟨"7", "Row C", "DGS10", "", ""⟩
      = { initState with
          failed := 1
          failures := ["Row C (DGS10) item 7 : FRED down"]
          fetchCalls := ["DGS10"] }
  ∧ runMain (fun _ => .error "FRED down") (fun _ _ => .ok ())
      (.error "Monday HTTP 500") = .fatal "Monday HTTP 500" :=
  ⟨by decide, by
    have h := C5_two_tier_errors.2.2.1 (fun _ => .error "FRED down")
      (fun _ _ => .ok ()) initState ⟨"7", "Row C", "DGS10", "", ""⟩
      "FRED down" (by decide) rfl
    exact h.trans (by decide),
   (C5_two_tier_errors.1 (fun _ => .error "FRED down")
      (fun _ _ => .ok ()) "Monday HTTP 500").1⟩

end

theorem update_vals_some_cd (cd today : String) (item : Item) (v : ℚ)
    (hc : ¬ cd = "") :
    update_vals (some cd) today item v =
      match (parse_float_maybe
          (if is_rate_series item.symbol then item.prev_rate
           else item.prev_index)).map
          (fun p => (if is_rate_series item.symbol then pyRound 2 v else v) - p) with
      | none => baseVals (is_rate_series item.symbol) today item
          (if is_rate_series item.symbol then pyRound 2 v else v)
      | some d => dictInsert
          (baseVals (is_rate_series item.symbol) today item
            (if is_rate_series item.symbol then pyRound 2 v else v)) cd
          (ColValue.numStr (if is_rate_series item.symbol then pyRound 2 d else d)) := by
  unfold update_vals baseVals
  dsimp only
  rw [if_neg hc]

/-- **C6** (amended): for every updated row with a configured (fresh)
delta column, the previously stored target-field text is parsed after
removing all percent signs and commas (anywhere in the text, not only a
trailing percent sign) and stripping whitespace; if that parse fails or
the field was empty, no delta field is included in the update; otherwise
the delta equals the newly written value minus the previous value,
rounded to 2 decimals for rate-routed rows — in particular previous rate
text "4.50%" with new rate value 4.83 yields delta 0.33.
(`C6_counterexample_percent_anywhere` refutes the claim's
"trailing percent sign" description of the parse.) -/
theorem C6_delta_from_previous (cd today : String) (item : Item) (v : ℚ)
    (h : freshDelta (some cd) = true) :
    (parse_float_maybe (if is_rate_series item.symbol then item.prev_rate
        else item.prev_index) = none →
      lookupVal cd (update_vals (some cd) today item v) = none)
  ∧ (∀ p, parse_float_maybe (if is_rate_series item.symbol then item.prev_rate
        else item.prev_index) = some p →
      lookupVal cd (update_vals (some cd) today item v)
        = some (ColValue.numStr
            (if is_rate_series item.symbol
             then pyRound 2 (pyRound 2 v - p)
             else v - p))) := by
  constructor
  · intro hp
    rw [update_vals_some_cd cd today item v (freshDelta_spec cd h).1, hp]
    dsimp only [Option.map_none']
    exact (baseVals_fresh_none _ today item _ cd h).1
  · intro p hp
    rw [update_vals_some_cd cd today item v (freshDelta_spec cd h).1, hp]
    dsimp only [Option.map_some']
    rw [lookupVal_dictInsert_self _ _ _ (baseVals_fresh_none _ today item _ cd h).2]
    cases htir : is_rate_series item.symbol <;> simp [htir]

section
attribute [local semireducible] Rat.add Rat.mul Rat.inv Rat.sub Rat.ofScientific

/-- Witness for C6: previous rate text "4.50%" and new rate value 4.83
give a delta entry of 0.33 in the payload. -/
theorem C6_witness :
    freshDelta (some "delta1") = true
  ∧ parse_float_maybe
      (if is_rate_series (⟨"1", "Row A", "DGS10", "4.50%", ""⟩ : Item).symbol
       then (⟨"1", "Row A", "DGS10", "4.50%", ""⟩ : Item).prev_rate
       else (⟨"1", "Row A", "DGS10", "4.50%", ""⟩ : Item).prev_index) = some (9 / 2)
  ∧ lookupVal "delta1"
      (update_vals (some "delta1") "2024-04-09"
        ⟨"1", "Row A", "DGS10", "4.50%", ""⟩ (483 / 100))
      = some (ColValue.numStr (33 / 100)) :=
  ⟨by decide, by decide, by
    have h := (C6_delta_from_previous "delta1" "2024-04-09"
      ⟨"1", "Row A", "DGS10", "4.50%", ""⟩ (483 / 100) (by decide)).2
      (9 / 2) (by decide)
    exact h.trans (by decide)⟩

/-- C6 as stated is false in its description of the parse: the source
removes percent signs anywhere, not only a trailing one.  For previous
rate text "%4.50" (non-empty), the claim's parse — strip a trailing
percent sign and the commas — fails, so the claim concludes no delta
field is included; but the code parses 4.50 and includes delta 0.33. -/
theorem C6_counterexample_percent_anywhere :
    claimParsePrev "%4.50" = none
  ∧ ("%4.50" : String) ≠ ""
  ∧ parse_float_maybe "%4.50" = some (9 / 2)
  ∧ lookupVal "delta1"
      (update_vals (some "delta1") "2024-04-09"
        ⟨"1", "Row A", "DGS10", "%4.50", ""⟩ (483 / 100))
      = some (ColValue.numStr (33 / 100)) := by
  refine ⟨?_, ?_, ?_, ?_⟩ <;> decide

end

/-- **C7** (amended): a value routed to the rate field is rounded to 2
decimal places before being written while a value routed to the index
field is written at full precision; the computed delta is rounded to 2
decimal places for rate-routed rows and written at full precision —
*not* rounded to 6 decimal places — for index-routed rows.
(`C7_counterexample_index_delta_unrounded` refutes the claimed 6-decimal
rounding.) -/
theorem C7_rounding_policy (cd today : String) (item : Item) (v p : ℚ)
    (h : freshDelta (some cd) = true)
    (hp : parse_float_maybe (if is_rate_series item.symbol then item.prev_rate
        else item.prev_index) = some p) :
    lookupVal (if is_rate_series item.symbol then COL_RATE else COL_INDEX)
        (update_vals (some cd) today item v)
      = some (ColValue.numStr (if is_rate_series item.symbol then pyRound 2 v else v))
  ∧ lookupVal cd (update_vals (some cd) today item v)
      = some (ColValue.numStr (if is_rate_series item.symbol
          then pyRound 2 (pyRound 2 v - p) else v - p)) := by
  constructor
  · rcases update_vals_shape (some cd) today item v with heq | ⟨c, d, hcd, hc, hd, heq⟩
    · rw [heq]
      exact (lookupVal_baseVals _ _ _ _).1
    · rw [heq]
      injection hcd with hcc
      subst hcc
      obtain ⟨h0, h1, h2, h3, h4, h5⟩ := freshDelta_spec cd h
      have htarget : (if is_rate_series item.symbol then COL_RATE else COL_INDEX) ≠ cd := by
        cases is_rate_series item.symbol
        · exact h2.symm
        · exact h1.symm
      rw [lookupVal_dictInsert_ne _ _ _ _ htarget]
      exact (lookupVal_baseVals _ _ _ _).1
  · rw [update_vals_some_cd cd today item v (freshDelta_spec cd h).1, hp]
    dsimp only [Option.map_some']
    rw [lookupVal_dictInsert_self _ _ _ (baseVals_fresh_none _ today item _ cd h).2]
    cases htir : is_rate_series item.symbol <;> simp [htir]

section
attribute [local semireducible] Rat.add Rat.mul Rat.inv Rat.sub Rat.ofScientific

/-- Witness for C7: an index-routed row (symbol "SP500") with previous
index text "1" and new value 2.1234567 gets the raw value written and
the raw delta 1.1234567. -/
theorem C7_witness :
    freshDelta (some "delta1") = true
  ∧ parse_float_maybe
      (if is_rate_series (⟨"2", "Row B", "SP500", "", "1"⟩ : Item).symbol
       then (⟨"2", "Row B", "SP500", "", "1"⟩ : Item).prev_rate
       else (⟨"2", "Row B", "SP500", "", "1"⟩ : Item).prev_index) = some 1
  ∧ lookupVal (if is_rate_series (⟨"2", "Row B", "SP500", "", "1"⟩ : Item).symbol
        then COL_RATE else COL_INDEX)
      (update_vals (some "delta1") "2024-04-09"
        ⟨"2", "Row B", "SP500", "", "1"⟩ (21234567 / 10000000))
      = some (ColValue.numStr (21234567 / 10000000)) :=
  ⟨by decide, by decide, by
    have h := (C7_rounding_policy "delta1" "2024-04-09"
      ⟨"2", "Row B", "SP500", "", "1"⟩ (21234567 / 10000000) 1
      (by decide) (by decide)).1
    exact h.trans (by decide)⟩

/-- C7 as stated is false for index-routed deltas: with previous index
text "1" and new value 2.1234567 the stored delta is the unrounded
1.1234567, which differs from its 6-decimal rounding 1.123457. -/
theorem C7_counterexample_index_delta_unrounded :
    is_rate_series "SP500" = false
  ∧ lookupVal "delta1"
      (update_vals (some "delta1") "2024-04-09"
        ⟨"2", "Row B", "SP500", "", "1"⟩ (21234567 / 10000000))
      = some (ColValue.numStr (11234567 / 10000000))
  ∧ pyRound 6 (11234567 / 10000000) ≠ (11234567 / 10000000 : ℚ) := by
  refine ⟨?_, ?_, ?_⟩ <;> decide

end

/-- **C8**: routing is a deterministic pure function of the row's
symbol under the fixed keyword configuration: equal symbols always get
the same classification, and a symbol routes to the rate field exactly
when its upper-cased, stripped form contains one of the fixed rate
keywords as a substring (case-insensitively, since the keywords are
upper-case and the symbol is upper-cased first); otherwise it routes to
the index field. -/
theorem C8_routing_deterministic :
    (∀ it1 it2 : Item, it1.symbol = it2.symbol →
        is_rate_series it1.symbol = is_rate_series it2.symbol)
  ∧ (∀ s : String, is_rate_series s = true ↔
        ∃ k ∈ rate_keywords, ∃ l r,
          stripChars (s.data.map Char.toUpper) = l ++ (k.data ++ r))
  ∧ (∀ s : String, is_rate_series s = false ↔
        ¬ ∃ k ∈ rate_keywords, ∃ l r,
          stripChars (s.data.map Char.toUpper) = l ++ (k.data ++ r)) := by
  have hchar : ∀ s : String, is_rate_series s = true ↔
      ∃ k ∈ rate_keywords, ∃ l r,
        stripChars (s.data.map Char.toUpper) = l ++ (k.data ++ r) := by
    intro s
    simp [is_rate_series, List.any_eq_true, containsSub_iff]
  refine ⟨?_, hchar, ?_⟩
  · intro it1 it2 h
    rw [h]
  · intro s
    rw [Bool.eq_false_iff]
    exact not_congr (hchar s)

/-- Witness for C8: two distinct rows with the same symbol "DGS10" are
classified identically. -/
theorem C8_witness :
    ((⟨"1", "Row A", "DGS10", "", ""⟩ : Item).symbol
      = (⟨"2", "Row X", "DGS10", "", ""⟩ : Item).symbol)
  ∧ is_rate_series (⟨"1", "Row A", "DGS10", "", ""⟩ : Item).symbol
      = is_rate_series (⟨"2", "Row X", "DGS10", "", ""⟩ : Item).symbol :=
  ⟨rfl, C8_routing_deterministic.1
    ⟨"1", "Row A", "DGS10", "", ""⟩ ⟨"2", "Row X", "DGS10", "", ""⟩ rfl⟩

/-- **C9**: counter partition invariant of the main loop.  Each row
increments exactly one of the three counters (updated, skipped, failed)
by exactly one, and folding the per-row step over any row list makes
updated + skipped + failed grow by exactly the number of rows processed
— in particular, from the zero-initialised state, the final sum equals
the total number of enumerated rows, and the equation holds for every
prefix of the row list, i.e. at every point during the loop. -/
theorem C9_counter_partition :
    (∀ (fetch : String → Except String ℚ)
        (push : Item → ℚ → Except String Unit)
        (st : RunState) (it : Item),
        ((processRow fetch push st it).updated = st.updated + 1
          ∧ (processRow fetch push st it).skipped_manual = st.skipped_manual
          ∧ (processRow fetch push st it).failed = st.failed)
      ∨ ((processRow fetch push st it).updated = st.updated
          ∧ (processRow fetch push st it).skipped_manual = st.skipped_manual + 1
          ∧ (processRow fetch push st it).failed = st.failed)
      ∨ ((processRow fetch push st it).updated = st.updated
          ∧ (processRow fetch push st it).skipped_manual = st.skipped_manual
          ∧ (processRow fetch push st it).failed = st.failed + 1))
  ∧ (∀ (fetch : String → Except String ℚ)
        (push : Item → ℚ → Except String Unit)
        (rows : List Item) (st : RunState),
        (rows.foldl (processRow fetch push) st).updated
          + (rows.foldl (processRow fetch push) st).skipped_manual
          + (rows.foldl (processRow fetch push) st).failed
        = st.updated + st.skipped_manual + st.failed + rows.length)
  ∧ (∀ (fetch : String → Except String ℚ)
        (push : Item → ℚ → Except String Unit)
        (rows : List Item),
        ((rows.foldl (processRow fetch push) initState).updated
          + (rows.foldl (processRow fetch push) initState).skipped_manual
          + (rows.foldl (processRow fetch push) initState).failed
        = rows.length)) :=
  ⟨fun fetch push st it => processRow_counters fetch push st it,
   fun fetch push rows st => foldl_processRow_sum fetch push rows st,
   fun fetch push rows => by
     have h := foldl_processRow_sum fetch push rows initState
     simpa [initState] using h⟩

section
attribute [local semireducible] Rat.add Rat.mul Rat.inv Rat.sub Rat.ofScientific

/-- **C10**: `parse_float_maybe` is total — for every input string it
returns either a number or `None` — and it returns `None` exactly when
the input is empty or, after removing percent signs and commas and
stripping whitespace, the remaining text is not a valid decimal number
(does not parse under the decimal-literal grammar of `float`).  The
concrete conjuncts exercise both sides. -/
theorem C10_parse_float_total :
    (∀ s : String, parse_float_maybe s = none ∨ ∃ q, parse_float_maybe s = some q)
  ∧ (∀ s : String, parse_float_maybe s = none ↔
        (s = "" ∨ pyFloatChars?
          (s.data.filter (fun c => c != '%' && c != ',')) = none))
  ∧ parse_float_maybe "" = none
  ∧ parse_float_maybe "4.50%" = some (9 / 2)
  ∧ parse_float_maybe "1,234.56" = some (30864 / 25)
  ∧ parse_float_maybe "abc" = none
  ∧ parse_float_maybe "-2.5e-1" = some (-(1 / 4))
  ∧ parse_float_maybe "." = none := by
  refine ⟨?_, ?_, by decide, by decide, by decide, by decide, by decide, by decide⟩
  · intro s
    rcases h : parse_float_maybe s with _ | q
    · left; rfl
    · right; exact ⟨q, rfl⟩
  · intro s
    unfold parse_float_maybe
    by_cases h : s = ""
    · simp [h]
    · simp [h]

end
